import Mathlib

/-!
Shallow embedding of `go-controller/pkg/ovn/address_set/address_set.go`
(dual-stack OVN address sets).

Modelling conventions:
* Go strings are `List Char` (`"lit".data`); `net.IP` is a structure carrying
  its `String()` form and its `utilnet.IsIPv6` classification, since those are
  the only two observations the module ever makes of an IP.
* The membership cache `map[string]net.IP` is modelled by its key list (keys
  are `ip.String()`; the stored values are only ever read back through their
  `String()` form, which equals the key, so keys capture everything
  observable).  Insertion keeps first-occurrence order; a Go map has no
  observable order, and no theorem below depends on the order chosen.
* The `goovn.Client` is a structure of response functions (one per client
  entry point); every client interaction is recorded in an `NBCall` trace.
* Go `error` results are `Option GoError`, with `none` = nil.  `GoError`
  constructors mirror the `fmt.Errorf` wrapping structure of the source; the
  human-readable message text is not modelled, only which wrap was applied and
  the wrapped cause.
* `sync.Mutex` locking is dropped: every operation is modelled as a whole
  serialized call, which is exactly what the lock enforces.
-/

/-- Sentinel errors of the `goovn` client observed by this module:
`goovn.ErrorNotFound`, `goovn.ErrorSchema`, and any other error value. -/
inductive OvnError where
  | notFound
  | schema
  | other
deriving DecidableEq, Repr

/-- The two address families of a dual-stack set. -/
inductive Family where
  | v4
  | v6
deriving DecidableEq, Repr

/-- Error values produced by the module, mirroring the `fmt.Errorf` /
`errors.Wrapf` wrapping in the source (message text elided). -/
inductive GoError where
  /-- setIPs: "failed to create update for address set %q: %v" (ASUpdate build). -/
  | updateBuildFailed (cause : OvnError)
  /-- setIPs: "failed to execute update for address set %q: %v". -/
  | updateExecFailed (cause : OvnError)
  /-- addIPs: "failed to add IPs (%q) to address set %q: %v". -/
  | addIPsFailed (cause : GoError)
  /-- deleteIPs: "failed to delete IPs (%q) to address set %q: %v". -/
  | deleteIPsFailed (cause : GoError)
  /-- ovnAddressSets.AddIPs / DeleteIPs: "failed to AddIPs to the v6 set: %w"
  (the DeleteIPs messages also say "AddIPs" in the source). -/
  | familyOpFailed (fam : Family) (cause : GoError)
  /-- errors.Wrapf(err, "%v", otherFamilyResult) with err non-nil; the other
  family's result only enters the message text. -/
  | wrapped (cause : GoError)
  /-- destroy: "failed to create delete for address set %q: %v". -/
  | destroyBuildFailed (cause : OvnError)
  /-- destroy: "failed to destroy address set %q: %v". -/
  | destroyExecFailed (cause : OvnError)
  /-- newOvnAddressSet: "failed to get address set %q: %v". -/
  | getFailed (cause : OvnError)
  /-- newOvnAddressSet: "failed to create address set %q: %v" (ASAdd build). -/
  | createBuildFailed (cause : OvnError)
  /-- newOvnAddressSet: "failed to create address set %q: %v" (Execute). -/
  | createExecFailed (cause : OvnError)
  /-- ForEachAddressSet: "error reading address sets: %v". -/
  | listFailed (cause : OvnError)
deriving DecidableEq, Repr

/-- A command built by the client.  The single-entry external-ids map
`map[string]string{"name": n}` is modelled by its sole value `n`. -/
inductive Cmd where
  | update (hashName : List Char) (ips : List (List Char)) (extIdName : List Char)
  | add (hashName : List Char) (ips : List (List Char)) (extIdName : List Char)
  | del (hashName : List Char)
deriving DecidableEq, Repr

/-- One interaction with the `goovn` client (command builders, `ASGet`, and
`Execute`), recorded in call order. -/
inductive NBCall where
  | asUpdate (hashName : List Char) (ips : List (List Char)) (extIdName : List Char)
  | asAdd (hashName : List Char) (ips : List (List Char)) (extIdName : List Char)
  | asDel (hashName : List Char)
  | asGet (hashName : List Char)
  | execute (c : Cmd)
deriving DecidableEq, Repr

/-- Behaviour of the `goovn.Client`: the outcome of each client entry point,
as a function of its arguments (`none` = success / nil error). -/
structure NB where
  updateBuild : List Char → List (List Char) → Option OvnError
  addBuild : List Char → List (List Char) → List Char → Option OvnError
  delBuild : List Char → Option OvnError
  getResult : List Char → Option OvnError
  exec : Cmd → Option OvnError

/-- A `net.IP`, observed only through `String()` and `utilnet.IsIPv6`. -/
structure IP where
  str : List Char
  isV6 : Bool
deriving DecidableEq, Repr

/-- `ipsToStringArray`: the `String()` forms of a slice of IPs, in order. -/
def ipsToStringArray (ips : List IP) : List (List Char) :=
  ips.map IP.str

/-- Key insertion into the modelled `map[string]net.IP` (adding a duplicate
key overwrites the value and leaves the key set unchanged). -/
def insertKey (m : List (List Char)) (s : List Char) : List (List Char) :=
  if s ∈ m then m else m ++ [s]

/-- Key list of the map built by `for _, ip := range ips { m[ip.String()] = ip }`:
the strings deduplicated in first-occurrence order. -/
def dedupKeys (l : List (List Char)) : List (List Char) :=
  l.foldl insertKey []

/-- Modelled from the spec: `util.HashForOVN` (package `pkg/util`, not among
the sources) is an opaque deterministic function producing a backing-store
legal identifier from a name; no claim depends on its definition, so it is
modelled as an injective tagging function. -/
def hashForOVN (s : List Char) : List Char :=
  'h' :: s

/-- `hashedAddressSet`: hash the provided input to make it a valid
ovnAddressSet name. -/
def hashedAddressSet (s : List Char) : List Char :=
  hashForOVN s

def ipv4AddressSetSuffix : List Char := "_v4".data

def ipv6AddressSetSuffix : List Char := "_v6".data

/-- `MakeAddressSetName`: the family-qualified names `name + "_v4"` and
`name + "_v6"`. -/
def MakeAddressSetName (name : List Char) : List Char × List Char :=
  (name ++ ipv4AddressSetSuffix, name ++ ipv6AddressSetSuffix)

/-- `MakeAddressSetHashNames`. -/
def MakeAddressSetHashNames (name : List Char) : List Char × List Char :=
  (hashedAddressSet (MakeAddressSetName name).1, hashedAddressSet (MakeAddressSetName name).2)

/-- Go `strings.TrimSuffix s suf`: drops one trailing occurrence of `suf` if
present, else returns `s` unchanged. -/
def trimSuffix (s suf : List Char) : List Char :=
  if suf <:+ s then s.take (s.length - suf.length) else s

/-- `truncateSuffixFromAddressSet`: strip a trailing `_v4`/`_v6` suffix if
present (legacy address set names have neither). -/
def truncateSuffixFromAddressSet (asName : List Char) : List Char :=
  if ipv4AddressSetSuffix <:+ asName then trimSuffix asName ipv4AddressSetSuffix
  else if ipv6AddressSetSuffix <:+ asName then trimSuffix asName ipv6AddressSetSuffix
  else asName

/-- `splitIPsByFamily`: collate a slice of IPs into v4 and v6 slices, in
input order, classifying each by `utilnet.IsIPv6`. -/
def splitIPsByFamily (ips : List IP) : List IP × List IP :=
  ips.foldl
    (fun acc ip => if ip.isV6 then (acc.1, acc.2 ++ [ip]) else (acc.1 ++ [ip], acc.2))
    ([], [])

/-- `ovnAddressSet`: one per-family backing object (the `uuid` field is only
ever used in log/error message text and is elided). -/
structure OvnAddressSet where
  name : List Char
  hashName : List Char
  ips : List (List Char)
deriving DecidableEq, Repr

/-- Result of an operation on a per-family set: the returned error, the set
after the call, and the trace of client interactions. -/
abbrev SetResult := Option GoError × OvnAddressSet × List NBCall

/-- `ovnAddressSet.setIPs`: build an `ASUpdate` command with the string forms
of `newIPs` plus the identifying metadata, execute it, and on success replace
the membership cache; on any failure the cache is untouched. -/
def OvnAddressSet.setIPs (as : OvnAddressSet) (nb : NB) (newIPs : List (List Char)) :
    SetResult :=
  match nb.updateBuild as.hashName newIPs with
  | some e =>
    (some (GoError.updateBuildFailed e), as, [NBCall.asUpdate as.hashName newIPs as.name])
  | none =>
    match nb.exec (Cmd.update as.hashName newIPs as.name) with
    | some e =>
      (some (GoError.updateExecFailed e), as,
        [NBCall.asUpdate as.hashName newIPs as.name,
         NBCall.execute (Cmd.update as.hashName newIPs as.name)])
    | none =>
      (none, { as with ips := dedupKeys newIPs },
        [NBCall.asUpdate as.hashName newIPs as.name,
         NBCall.execute (Cmd.update as.hashName newIPs as.name)])

/-- `ovnAddressSet.addIPs`: keep only the requested IPs whose key is absent
from the cache; if none remain, return nil without touching the client,
otherwise `setIPs` with the new IPs appended to the cached members. -/
def OvnAddressSet.addIPs (as : OvnAddressSet) (nb : NB) (ips : List IP) : SetResult :=
  let uniqIPs := ips.filter (fun ip => decide (ip.str ∉ as.ips))
  if uniqIPs.isEmpty then (none, as, [])
  else
    match as.setIPs nb (ipsToStringArray uniqIPs ++ as.ips) with
    | (some e, as2, calls) => (some (GoError.addIPsFailed e), as2, calls)
    | (none, as2, calls) => (none, as2, calls)

/-- `ovnAddressSet.deleteIPs`: walk the requested IPs over a copy of the
cache, deleting present keys from the copy and appending the absent IPs to
`newIPs`; then call `setIPs newIPs` — i.e. the replace is issued with the
requested-but-absent IPs, not with the remaining cache members. -/
def OvnAddressSet.deleteIPs (as : OvnAddressSet) (nb : NB) (ips : List IP) : SetResult :=
  let acc := ips.foldl
    (fun (p : List (List Char) × List (List Char)) ip =>
      if ip.str ∈ p.1 then (p.1.erase ip.str, p.2) else (p.1, p.2 ++ [ip.str]))
    (as.ips, [])
  match as.setIPs nb acc.2 with
  | (some e, as2, calls) => (some (GoError.deleteIPsFailed e), as2, calls)
  | (none, as2, calls) => (none, as2, calls)

/-- `ovnAddressSet.destroy`: build and execute an `ASDel` of the hashed name;
any execution error (including `ErrorNotFound`) is returned; on success the
cache is cleared (`as.ips = nil`). -/
def OvnAddressSet.destroy (as : OvnAddressSet) (nb : NB) : SetResult :=
  match nb.delBuild as.hashName with
  | some e => (some (GoError.destroyBuildFailed e), as, [NBCall.asDel as.hashName])
  | none =>
    match nb.exec (Cmd.del as.hashName) with
    | some e =>
      (some (GoError.destroyExecFailed e), as,
        [NBCall.asDel as.hashName, NBCall.execute (Cmd.del as.hashName)])
    | none =>
      (none, { as with ips := [] },
        [NBCall.asDel as.hashName, NBCall.execute (Cmd.del as.hashName)])

/-- `newOvnAddressSet`: initialise the in-memory object, `ASGet` the hashed
name; on a sentinel not-found / schema error create the set (`ASAdd` with the
desired IPs and `{"name": name}` metadata, failure fatal); on any other `Get`
error fail; when found, converge membership via `setIPs`. -/
def newOvnAddressSet (nb : NB) (name : List Char) (ips : List IP) :
    Except GoError OvnAddressSet × List NBCall :=
  let as : OvnAddressSet :=
    { name := name, hashName := hashedAddressSet name,
      ips := dedupKeys (ipsToStringArray ips) }
  match nb.getResult as.hashName with
  | some e =>
    if e = OvnError.notFound ∨ e = OvnError.schema then
      match nb.addBuild as.hashName (ipsToStringArray ips) name with
      | some e2 =>
        (Except.error (GoError.createBuildFailed e2),
          [NBCall.asGet as.hashName, NBCall.asAdd as.hashName (ipsToStringArray ips) name])
      | none =>
        match nb.exec (Cmd.add as.hashName (ipsToStringArray ips) name) with
        | some e3 =>
          (Except.error (GoError.createExecFailed e3),
            [NBCall.asGet as.hashName, NBCall.asAdd as.hashName (ipsToStringArray ips) name,
             NBCall.execute (Cmd.add as.hashName (ipsToStringArray ips) name)])
        | none =>
          (Except.ok as,
            [NBCall.asGet as.hashName, NBCall.asAdd as.hashName (ipsToStringArray ips) name,
             NBCall.execute (Cmd.add as.hashName (ipsToStringArray ips) name)])
    else (Except.error (GoError.getFailed e), [NBCall.asGet as.hashName])
  | none =>
    match as.setIPs nb (ipsToStringArray ips) with
    | (some e, _, calls) => (Except.error e, NBCall.asGet as.hashName :: calls)
    | (none, as2, calls) => (Except.ok as2, NBCall.asGet as.hashName :: calls)

/-- `ovnAddressSets`: the public dual-stack handle (lock elided, see header). -/
structure OvnAddressSets where
  name : List Char
  ipv4 : Option OvnAddressSet
  ipv6 : Option OvnAddressSet
deriving DecidableEq, Repr

/-- Result of an operation on a dual-stack handle. -/
abbrev SetsResult := Option GoError × OvnAddressSets × List NBCall

/-- `ovnAddressSets.SetIPs`: split by family, call `setIPs` on the v6 set
(when present), then on the v4 set (when present); the returned error is
`errors.Wrapf(v6Err, "%v", v4Result)` when a v4 set is present — which is nil
whenever `v6Err` is nil, regardless of the v4 result. -/
def OvnAddressSets.SetIPs (as : OvnAddressSets) (nb : NB) (ips : List IP) : SetsResult :=
  let v4ips := (splitIPsByFamily ips).1
  let v6ips := (splitIPsByFamily ips).2
  let r6 : Option GoError × Option OvnAddressSet × List NBCall :=
    match as.ipv6 with
    | some s6 =>
      match s6.setIPs nb (ipsToStringArray v6ips) with
      | (e, s, t) => (e, some s, t)
    | none => (none, none, [])
  let r4 : Option GoError × Option OvnAddressSet × List NBCall :=
    match as.ipv4 with
    | some s4 =>
      match s4.setIPs nb (ipsToStringArray v4ips) with
      | (e, s, t) => (e, some s, t)
    | none => (none, none, [])
  let err : Option GoError :=
    match as.ipv4 with
    | some _ => r6.1.map GoError.wrapped
    | none => r6.1
  (err, { name := as.name, ipv4 := r4.2.1, ipv6 := r6.2.1 }, r6.2.2 ++ r4.2.2)

/-- `ovnAddressSets.AddIPs`: nil for an empty input; otherwise split by
family and call `addIPs` on the v6 set first, returning immediately (wrapped,
naming the family) on failure; the v4 set is attempted only afterwards. -/
def OvnAddressSets.AddIPs (as : OvnAddressSets) (nb : NB) (ips : List IP) : SetsResult :=
  if ips.isEmpty then (none, as, [])
  else
    let v4ips := (splitIPsByFamily ips).1
    let v6ips := (splitIPsByFamily ips).2
    match as.ipv6 with
    | some s6 =>
      match s6.addIPs nb v6ips with
      | (some e, s6', t6) =>
        (some (GoError.familyOpFailed Family.v6 e), { as with ipv6 := some s6' }, t6)
      | (none, s6', t6) =>
        match as.ipv4 with
        | some s4 =>
          match s4.addIPs nb v4ips with
          | (some e, s4', t4) =>
            (some (GoError.familyOpFailed Family.v4 e),
              { as with ipv6 := some s6', ipv4 := some s4' }, t6 ++ t4)
          | (none, s4', t4) =>
            (none, { as with ipv6 := some s6', ipv4 := some s4' }, t6 ++ t4)
        | none => (none, { as with ipv6 := some s6' }, t6)
    | none =>
      match as.ipv4 with
      | some s4 =>
        match s4.addIPs nb v4ips with
        | (some e, s4', t4) =>
          (some (GoError.familyOpFailed Family.v4 e), { as with ipv4 := some s4' }, t4)
        | (none, s4', t4) => (none, { as with ipv4 := some s4' }, t4)
      | none => (none, as, [])

/-- `ovnAddressSets.DeleteIPs`: same structure as `AddIPs` over `deleteIPs`
(the source even reuses the "failed to AddIPs to the ... set" messages). -/
def OvnAddressSets.DeleteIPs (as : OvnAddressSets) (nb : NB) (ips : List IP) : SetsResult :=
  if ips.isEmpty then (none, as, [])
  else
    let v4ips := (splitIPsByFamily ips).1
    let v6ips := (splitIPsByFamily ips).2
    match as.ipv6 with
    | some s6 =>
      match s6.deleteIPs nb v6ips with
      | (some e, s6', t6) =>
        (some (GoError.familyOpFailed Family.v6 e), { as with ipv6 := some s6' }, t6)
      | (none, s6', t6) =>
        match as.ipv4 with
        | some s4 =>
          match s4.deleteIPs nb v4ips with
          | (some e, s4', t4) =>
            (some (GoError.familyOpFailed Family.v4 e),
              { as with ipv6 := some s6', ipv4 := some s4' }, t6 ++ t4)
          | (none, s4', t4) =>
            (none, { as with ipv6 := some s6', ipv4 := some s4' }, t6 ++ t4)
        | none => (none, { as with ipv6 := some s6' }, t6)
    | none =>
      match as.ipv4 with
      | some s4 =>
        match s4.deleteIPs nb v4ips with
        | (some e, s4', t4) =>
          (some (GoError.familyOpFailed Family.v4 e), { as with ipv4 := some s4' }, t4)
        | (none, s4', t4) => (none, { as with ipv4 := some s4' }, t4)
      | none => (none, as, [])

/-- `ovnAddressSets.Destroy`: destroy the v4 set (when present), aborting on
failure, then the v6 set (when present). -/
def OvnAddressSets.Destroy (as : OvnAddressSets) (nb : NB) : SetsResult :=
  match as.ipv4 with
  | some s4 =>
    match s4.destroy nb with
    | (some e, s4', t4) => (some e, { as with ipv4 := some s4' }, t4)
    | (none, s4', t4) =>
      match as.ipv6 with
      | some s6 =>
        match s6.destroy nb with
        | (some e, s6', t6) =>
          (some e, { as with ipv4 := some s4', ipv6 := some s6' }, t4 ++ t6)
        | (none, s6', t6) =>
          (none, { as with ipv4 := some s4', ipv6 := some s6' }, t4 ++ t6)
      | none => (none, { as with ipv4 := some s4' }, t4)
  | none =>
    match as.ipv6 with
    | some s6 =>
      match s6.destroy nb with
      | (some e, s6', t6) => (some e, { as with ipv6 := some s6' }, t6)
      | (none, s6', t6) => (none, { as with ipv6 := some s6' }, t6)
    | none => (none, as, [])

/-- A value of the `ExternalID` metadata map of a backing-store record:
either a string or some non-string value (the type switch in
`ForEachAddressSet` skips the latter). -/
inductive ExtVal where
  | str (s : List Char)
  | nonString
deriving DecidableEq, Repr

/-- One record returned by `ASList`, exposing its `ExternalID` map. -/
structure ASRecord where
  externalID : List (List Char × ExtVal)
deriving DecidableEq, Repr

/-- Map lookup in the `ExternalID` metadata (first matching key). -/
def lookupExt (key : List Char) : List (List Char × ExtVal) → Option ExtVal
  | [] => none
  | p :: rest => if p.1 = key then some p.2 else lookupExt key rest

/-- The record's `"name"` metadata value, when present and string-valued;
`none` makes the loop `continue` to the next record. -/
def ASRecord.nameValue (r : ASRecord) : Option (List Char) :=
  match lookupExt "name".data r.externalID with
  | some (ExtVal.str s) => some s
  | some ExtVal.nonString => none
  | none => none

/-- A call of the iterator function: `(addrSetName, namespace, nameSuffix)`. -/
abbrev Visit := List Char × List Char × List Char

/-- Go `strings.Split(s, ".")` (single-character separator): always returns
at least one piece. -/
def splitOnDot : List Char → List (List Char)
  | [] => [[]]
  | c :: rest =>
    match splitOnDot rest with
    | [] => [[]]
    | w :: ws => if c = '.' then [] :: w :: ws else (c :: w) :: ws

/-- The record loop of `ForEachAddressSet`: skip records without a
string-valued `"name"`; otherwise normalize the name, break if already
processed, else record it, invoke the iterator with the normalized name, its
first dot-piece and second dot-piece (empty if absent) — and then break
unconditionally. -/
def forEachLoop (processed : List (List Char)) : List ASRecord → List Visit
  | [] => []
  | r :: rest =>
    match r.nameValue with
    | none => forEachLoop processed rest
    | some nm =>
      let addrSetName := truncateSuffixFromAddressSet nm
      if addrSetName ∈ processed then []
      else
        let names := splitOnDot addrSetName
        [(addrSetName,
          match names with
          | [] => []
          | x :: _ => x,
          match names with
          | _ :: y :: _ => y
          | _ => [])]

/-- `ovnAddressSetFactory.ForEachAddressSet`, with the `ASList` outcome given
as `(listErr, addrSets)`: a non-nil list error other than `ErrorSchema` is
returned without visiting; otherwise the record loop runs (starting with an
empty processed set) and nil is returned. -/
def ForEachAddressSet (listErr : Option OvnError) (addrSets : List ASRecord) :
    Option GoError × List Visit :=
  match listErr with
  | some e =>
    if e = OvnError.schema then (none, forEachLoop [] addrSets)
    else (some (GoError.listFailed e), [])
  | none => (none, forEachLoop [] addrSets)

/-- The subset of `ips` not already cached in `as` (the `uniqIPs` of `addIPs`). -/
def newSubset (as : OvnAddressSet) (ips : List IP) : List IP :=
  ips.filter (fun ip => decide (ip.str ∉ as.ips))

/-- The payload of the replace command issued by `addIPs`. -/
def addPayload (as : OvnAddressSet) (ips : List IP) : List (List Char) :=
  ipsToStringArray (newSubset as ips) ++ as.ips

/-- The in-memory object as initialised by `newOvnAddressSet` before any
client interaction. -/
def initialAddressSet (name : List Char) (ips : List IP) : OvnAddressSet :=
  { name := name, hashName := hashedAddressSet name,
    ips := dedupKeys (ipsToStringArray ips) }

/-- Whether a client interaction belongs to a create (an `ASAdd` build or the
execution of an add command). -/
def isCreateCall : NBCall → Bool
  | NBCall.asAdd _ _ _ => true
  | NBCall.execute (Cmd.add _ _ _) => true
  | _ => false

/-- The `"name"` metadata of the first record that has a string-valued one. -/
def firstNameValue : List ASRecord → Option (List Char)
  | [] => none
  | r :: rest =>
    match r.nameValue with
    | some nm => some nm
    | none => firstNameValue rest

/-- The visit the record loop generates from a raw record name. -/
def visitOfName (nm : List Char) : Visit :=
  (truncateSuffixFromAddressSet nm,
   match splitOnDot (truncateSuffixFromAddressSet nm) with
   | [] => []
   | x :: _ => x,
   match splitOnDot (truncateSuffixFromAddressSet nm) with
   | _ :: y :: _ => y
   | _ => [])

/-- A client for which every call succeeds. -/
def nbAllOk : NB :=
  { updateBuild := fun _ _ => none
    addBuild := fun _ _ _ => none
    delBuild := fun _ => none
    getResult := fun _ => none
    exec := fun _ => none }

/-- All-success client, except that `ASGet` reports not-found. -/
def nbGetNotFound : NB :=
  { nbAllOk with getResult := fun _ => some OvnError.notFound }

/-- All-success client, except that executing any update command fails. -/
def nbUpdateExecFails : NB :=
  { nbAllOk with
    exec := fun c =>
      match c with
      | Cmd.update _ _ _ => some OvnError.other
      | _ => none }

/-- All-success client, except that executing any delete command reports
not-found. -/
def nbDelExecNotFound : NB :=
  { nbAllOk with
    exec := fun c =>
      match c with
      | Cmd.del _ => some OvnError.notFound
      | _ => none }

/-- All-success client, except that executing an update against the v4 hashed
name `hashedAddressSet "n_v4"` fails. -/
def nbV4UpdateFails : NB :=
  { nbAllOk with
    exec := fun c =>
      match c with
      | Cmd.update h _ _ =>
        if h = hashedAddressSet ("n_v4".data) then some OvnError.other else none
      | _ => none }

/-- All-success client, except that executing an update against the v6 hashed
name `hashedAddressSet "n_v6"` fails. -/
def nbV6UpdateFails : NB :=
  { nbAllOk with
    exec := fun c =>
      match c with
      | Cmd.update h _ _ =>
        if h = hashedAddressSet ("n_v6".data) then some OvnError.other else none
      | _ => none }

/-- A v4-family set caching `10.0.0.1`, used for the `deleteIPs` analysis. -/
def asDel1 : OvnAddressSet :=
  { name := "a_v4".data, hashName := hashedAddressSet ("a_v4".data),
    ips := ["10.0.0.1".data] }

/-- An empty v4-family set named `n_v4`. -/
def asN4 : OvnAddressSet :=
  { name := "n_v4".data, hashName := hashedAddressSet ("n_v4".data), ips := [] }

/-- An empty v6-family set named `n_v6`. -/
def asN6 : OvnAddressSet :=
  { name := "n_v6".data, hashName := hashedAddressSet ("n_v6".data), ips := [] }

/-- A v4-family set caching `10.0.0.1`, used for the destroy analysis. -/
def asD4 : OvnAddressSet :=
  { name := "d_v4".data, hashName := hashedAddressSet ("d_v4".data),
    ips := ["10.0.0.1".data] }

/-- An empty v6-family set named `d_v6`. -/
def asD6 : OvnAddressSet :=
  { name := "d_v6".data, hashName := hashedAddressSet ("d_v6".data), ips := [] }

/-- A v4-family set caching `10.0.0.1`, used for the `addIPs` witness. -/
def asW6 : OvnAddressSet :=
  { name := "w_v4".data, hashName := hashedAddressSet ("w_v4".data),
    ips := ["10.0.0.1".data] }

theorem insertKey_toFinset (m : List (List Char)) (s : List Char) :
    (insertKey m s).toFinset = insert s m.toFinset := by
  unfold insertKey
  split
  · next h => exact (Finset.insert_eq_self.mpr (List.mem_toFinset.mpr h)).symm
  · next h =>
    ext x
    simp [List.mem_toFinset, List.mem_append, or_comm]

theorem foldl_insertKey_toFinset (l : List (List Char)) :
    ∀ m : List (List Char), (l.foldl insertKey m).toFinset = m.toFinset ∪ l.toFinset := by
  induction l with
  | nil => intro m; simp
  | cons s l ih =>
    intro m
    rw [List.foldl_cons, ih, insertKey_toFinset]
    ext x
    simp [List.mem_toFinset, or_comm, or_left_comm]

theorem dedupKeys_toFinset (l : List (List Char)) : (dedupKeys l).toFinset = l.toFinset := by
  have h := foldl_insertKey_toFinset l []
  simpa [dedupKeys] using h

theorem insertKey_nodup (m : List (List Char)) (s : List Char) (h : m.Nodup) :
    (insertKey m s).Nodup := by
  unfold insertKey
  split
  · exact h
  · next hs =>
    rw [List.nodup_append]
    refine ⟨h, List.nodup_singleton s, ?_⟩
    intro a ha hb
    rw [List.mem_singleton] at hb
    exact hs (hb ▸ ha)

theorem foldl_insertKey_nodup (l : List (List Char)) :
    ∀ m : List (List Char), m.Nodup → (l.foldl insertKey m).Nodup := by
  induction l with
  | nil => intro m h; exact h
  | cons s l ih => intro m h; exact ih _ (insertKey_nodup m s h)

theorem dedupKeys_nodup (l : List (List Char)) : (dedupKeys l).Nodup :=
  foldl_insertKey_nodup l [] List.nodup_nil

theorem setIPs_build_err {nb : NB} {as : OvnAddressSet} {l : List (List Char)} {e : OvnError}
    (h : nb.updateBuild as.hashName l = some e) :
    as.setIPs nb l =
      (some (GoError.updateBuildFailed e), as, [NBCall.asUpdate as.hashName l as.name]) := by
  simp [OvnAddressSet.setIPs, h]

theorem setIPs_exec_err {nb : NB} {as : OvnAddressSet} {l : List (List Char)} {e : OvnError}
    (h1 : nb.updateBuild as.hashName l = none)
    (h2 : nb.exec (Cmd.update as.hashName l as.name) = some e) :
    as.setIPs nb l =
      (some (GoError.updateExecFailed e), as,
       [NBCall.asUpdate as.hashName l as.name,
        NBCall.execute (Cmd.update as.hashName l as.name)]) := by
  simp [OvnAddressSet.setIPs, h1, h2]

theorem setIPs_ok {nb : NB} {as : OvnAddressSet} {l : List (List Char)}
    (h1 : nb.updateBuild as.hashName l = none)
    (h2 : nb.exec (Cmd.update as.hashName l as.name) = none) :
    as.setIPs nb l =
      (none, { as with ips := dedupKeys l },
       [NBCall.asUpdate as.hashName l as.name,
        NBCall.execute (Cmd.update as.hashName l as.name)]) := by
  simp [OvnAddressSet.setIPs, h1, h2]

/-- Claim C7: the per-family replace primitive is atomic with respect to the
cache — if the backing-store command build or execution fails, the cached
membership is left exactly unchanged; if execution succeeds, the cache is
fully replaced by the new IPs deduplicated by string form. -/
theorem setIPs_cache_atomic (nb : NB) (as : OvnAddressSet) (newIPs : List (List Char)) :
    ((as.setIPs nb newIPs).1 ≠ none → (as.setIPs nb newIPs).2.1 = as) ∧
    ((as.setIPs nb newIPs).1 = none →
      (as.setIPs nb newIPs).2.1 = { as with ips := dedupKeys newIPs } ∧
      (dedupKeys newIPs).toFinset = newIPs.toFinset ∧ (dedupKeys newIPs).Nodup) := by
  cases hb : nb.updateBuild as.hashName newIPs with
  | some e => rw [setIPs_build_err hb]; simp
  | none =>
    cases hx : nb.exec (Cmd.update as.hashName newIPs as.name) with
    | some e => rw [setIPs_exec_err hb hx]; simp
    | none =>
      rw [setIPs_ok hb hx]
      exact ⟨fun h => absurd rfl h, fun _ => ⟨rfl, dedupKeys_toFinset newIPs, dedupKeys_nodup newIPs⟩⟩

/-- Witness for C7 at concrete inputs: a failing execution leaves the cache of
`asW6` unchanged; a successful replace installs the deduplicated new IPs. -/
theorem setIPs_cache_atomic_witness :
    (OvnAddressSet.setIPs asW6 nbUpdateExecFails ["10.0.0.2".data]).2.1 = asW6 ∧
    (OvnAddressSet.setIPs asW6 nbAllOk ["10.0.0.2".data, "10.0.0.2".data]).2.1 =
      { asW6 with ips := dedupKeys ["10.0.0.2".data, "10.0.0.2".data] } := by
  constructor
  · exact (setIPs_cache_atomic nbUpdateExecFails asW6 _).1 (by decide)
  · exact ((setIPs_cache_atomic nbAllOk asW6 _).2 (by decide)).1

theorem splitIPsByFamily_foldl (ips : List IP) :
    ∀ acc : List IP × List IP,
      ips.foldl
          (fun acc ip => if ip.isV6 then (acc.1, acc.2 ++ [ip]) else (acc.1 ++ [ip], acc.2))
          acc =
        (acc.1 ++ ips.filter (fun ip => !ip.isV6), acc.2 ++ ips.filter (fun ip => ip.isV6)) := by
  induction ips with
  | nil => intro acc; simp
  | cons ip ips ih =>
    intro acc
    rw [List.foldl_cons, ih]
    cases hv : ip.isV6 <;> simp [List.filter_cons, hv]

/-- Claim C10: splitting IPs by family is a total, order-preserving partition:
the v4 and v6 slices are exactly the input filtered on the IsIPv6
classification (order preserved, no element dropped, duplicated across
families, or validated), so each element lands in exactly one slice. -/
theorem splitIPsByFamily_partition (ips : List IP) :
    splitIPsByFamily ips =
      (ips.filter (fun ip => !ip.isV6), ips.filter (fun ip => ip.isV6)) ∧
    ∀ ip : IP,
      (ip ∈ (splitIPsByFamily ips).1 ↔ ip ∈ ips ∧ ip.isV6 = false) ∧
      (ip ∈ (splitIPsByFamily ips).2 ↔ ip ∈ ips ∧ ip.isV6 = true) := by
  have h : splitIPsByFamily ips =
      (ips.filter (fun ip => !ip.isV6), ips.filter (fun ip => ip.isV6)) := by
    have := splitIPsByFamily_foldl ips ([], [])
    simpa [splitIPsByFamily] using this
  refine ⟨h, fun ip => ⟨?_, ?_⟩⟩
  · rw [h]; simp [List.mem_filter]
  · rw [h]; simp [List.mem_filter]

/-- Witness for C10 at a concrete mixed input: a v4 address goes to the v4
slice and a v6 address to the v6 slice, in order. -/
theorem splitIPsByFamily_partition_witness :
    splitIPsByFamily [⟨"10.0.0.1".data, false⟩, ⟨"fd00::1".data, true⟩, ⟨"10.0.0.2".data, false⟩] =
      ([⟨"10.0.0.1".data, false⟩, ⟨"10.0.0.2".data, false⟩], [⟨"fd00::1".data, true⟩]) := by
  rw [(splitIPsByFamily_partition _).1]
  decide

theorem suffix_eq_of_length {l₁ l₂ t : List Char} (h₁ : l₁ <:+ t) (h₂ : l₂ <:+ t)
    (h : l₁.length = l₂.length) : l₁ = l₂ := by
  obtain ⟨a, ha⟩ := h₁
  obtain ⟨b, hb⟩ := h₂
  have hab : a ++ l₁ = b ++ l₂ := by rw [ha, hb]
  have hl : a.length = b.length := by
    have hlen := congrArg List.length hab
    simp only [List.length_append] at hlen
    omega
  exact (List.append_inj hab hl).2

theorem trimSuffix_append (n suf : List Char) : trimSuffix (n ++ suf) suf = n := by
  unfold trimSuffix
  rw [if_pos (List.suffix_append n suf)]
  rw [List.length_append, Nat.add_sub_cancel, List.take_left]

/-- Claim C9: the family-qualified names of a logical name `n` are exactly
`n ++ "_v4"` and `n ++ "_v6"` (pure concatenation, distinct for every `n`),
legacy-name normalization is a left inverse of family qualification, and a
name carrying neither suffix is returned unchanged (and only such names are). -/
theorem makeAddressSetName_truncate_inverse (n : List Char) :
    (MakeAddressSetName n).1 = n ++ ipv4AddressSetSuffix ∧
    (MakeAddressSetName n).2 = n ++ ipv6AddressSetSuffix ∧
    (MakeAddressSetName n).1 ≠ (MakeAddressSetName n).2 ∧
    truncateSuffixFromAddressSet (MakeAddressSetName n).1 = n ∧
    truncateSuffixFromAddressSet (MakeAddressSetName n).2 = n ∧
    (truncateSuffixFromAddressSet n = n ↔
      ¬ (ipv4AddressSetSuffix <:+ n) ∧ ¬ (ipv6AddressSetSuffix <:+ n)) := by
  have hlen4 : ipv4AddressSetSuffix.length = 3 := by decide
  have hlen6 : ipv6AddressSetSuffix.length = 3 := by decide
  have hne46 : ipv4AddressSetSuffix ≠ ipv6AddressSetSuffix := by decide
  refine ⟨rfl, rfl, ?_, ?_, ?_, ?_⟩
  · intro h
    exact hne46 (List.append_cancel_left h)
  · show truncateSuffixFromAddressSet (n ++ ipv4AddressSetSuffix) = n
    unfold truncateSuffixFromAddressSet
    rw [if_pos (List.suffix_append n ipv4AddressSetSuffix)]
    exact trimSuffix_append n ipv4AddressSetSuffix
  · show truncateSuffixFromAddressSet (n ++ ipv6AddressSetSuffix) = n
    have hnot : ¬ (ipv4AddressSetSuffix <:+ n ++ ipv6AddressSetSuffix) := by
      intro hs
      exact hne46
        (suffix_eq_of_length hs (List.suffix_append n ipv6AddressSetSuffix) (by decide))
    unfold truncateSuffixFromAddressSet
    rw [if_neg hnot, if_pos (List.suffix_append n ipv6AddressSetSuffix)]
    exact trimSuffix_append n ipv6AddressSetSuffix
  · constructor
    · intro heq
      have hstrip : ∀ suf : List Char, suf <:+ n → suf.length = 3 →
          (trimSuffix n suf).length = n.length - 3 ∧ 3 ≤ n.length := by
        intro suf hs hl
        constructor
        · unfold trimSuffix
          rw [if_pos hs, List.length_take, hl]
          omega
        · rw [← hl]
          exact hs.length_le
      constructor
      · intro h4
        obtain ⟨hlt, hge⟩ := hstrip ipv4AddressSetSuffix h4 hlen4
        have : truncateSuffixFromAddressSet n = trimSuffix n ipv4AddressSetSuffix := by
          unfold truncateSuffixFromAddressSet
          rw [if_pos h4]
        rw [this] at heq
        have := congrArg List.length heq
        omega
      · intro h6
        by_cases h4 : ipv4AddressSetSuffix <:+ n
        · obtain ⟨hlt, hge⟩ := hstrip ipv4AddressSetSuffix h4 hlen4
          have : truncateSuffixFromAddressSet n = trimSuffix n ipv4AddressSetSuffix := by
            unfold truncateSuffixFromAddressSet
            rw [if_pos h4]
          rw [this] at heq
          have := congrArg List.length heq
          omega
        · obtain ⟨hlt, hge⟩ := hstrip ipv6AddressSetSuffix h6 hlen6
          have : truncateSuffixFromAddressSet n = trimSuffix n ipv6AddressSetSuffix := by
            unfold truncateSuffixFromAddressSet
            rw [if_neg h4, if_pos h6]
          rw [this] at heq
          have := congrArg List.length heq
          omega
    · intro h
      unfold truncateSuffixFromAddressSet
      rw [if_neg h.1, if_neg h.2]

/-- Witness for C9 at the concrete logical name `ns1.egress`: both
family-qualified names normalize back to it, and the two qualified names
differ. -/
theorem makeAddressSetName_truncate_inverse_witness :
    truncateSuffixFromAddressSet (MakeAddressSetName ("ns1.egress".data)).1 = "ns1.egress".data ∧
    truncateSuffixFromAddressSet (MakeAddressSetName ("ns1.egress".data)).2 = "ns1.egress".data ∧
    (MakeAddressSetName ("ns1.egress".data)).1 ≠ (MakeAddressSetName ("ns1.egress".data)).2 := by
  refine ⟨?_, ?_, ?_⟩
  · exact (makeAddressSetName_truncate_inverse ("ns1.egress".data)).2.2.2.1
  · exact (makeAddressSetName_truncate_inverse ("ns1.egress".data)).2.2.2.2.1
  · exact (makeAddressSetName_truncate_inverse ("ns1.egress".data)).2.2.1

theorem addIPs_eq_of_nonempty (nb : NB) (as : OvnAddressSet) (ips : List IP)
    (hne : (newSubset as ips).isEmpty = false) :
    as.addIPs nb ips =
      match as.setIPs nb (addPayload as ips) with
      | (some e, as2, calls) => (some (GoError.addIPsFailed e), as2, calls)
      | (none, as2, calls) => (none, as2, calls) := by
  unfold newSubset at hne
  unfold OvnAddressSet.addIPs addPayload newSubset
  simp only [hne, Bool.false_eq_true, if_false]

/-- Claim C6: for a per-family set, `addIPs` with an IP list whose members are
all already cached returns success without any backing-store call; otherwise
it issues exactly one replace carrying the union of the cache and the new
subset, and the resulting cached membership equals that union. -/
theorem addIPs_noop_or_union_replace (nb : NB) (as : OvnAddressSet) (ips : List IP) :
    ((∀ ip ∈ ips, ip.str ∈ as.ips) → as.addIPs nb ips = (none, as, [])) ∧
    ((¬ ∀ ip ∈ ips, ip.str ∈ as.ips) → (as.addIPs nb ips).1 = none →
      (as.addIPs nb ips).2.2 =
        [NBCall.asUpdate as.hashName (addPayload as ips) as.name,
         NBCall.execute (Cmd.update as.hashName (addPayload as ips) as.name)] ∧
      (addPayload as ips).toFinset =
        as.ips.toFinset ∪ (ipsToStringArray (newSubset as ips)).toFinset ∧
      (as.addIPs nb ips).2.1.ips.toFinset =
        as.ips.toFinset ∪ (ipsToStringArray (newSubset as ips)).toFinset) := by
  constructor
  · intro hall
    have hf : ips.filter (fun ip => decide (ip.str ∉ as.ips)) = [] := by
      rw [List.filter_eq_nil_iff]
      intro ip hip
      simp [hall ip hip]
    unfold OvnAddressSet.addIPs
    simp only [hf]
    rfl
  · intro hne hok
    have hf : newSubset as ips ≠ [] := by
      intro h0
      apply hne
      intro ip hip
      have hmem := List.filter_eq_nil_iff.mp h0 ip hip
      simpa using hmem
    have hemp : (newSubset as ips).isEmpty = false := by
      cases hcc : newSubset as ips with
      | nil => exact absurd hcc hf
      | cons a l => simp [hcc]
    have hcase := addIPs_eq_of_nonempty nb as ips hemp
    have hpayload : (addPayload as ips).toFinset =
        as.ips.toFinset ∪ (ipsToStringArray (newSubset as ips)).toFinset := by
      rw [addPayload, List.toFinset_append, Finset.union_comm]
    cases hb : nb.updateBuild as.hashName (addPayload as ips) with
    | some e2 =>
      rw [setIPs_build_err hb] at hcase
      rw [hcase] at hok
      simp at hok
    | none =>
      cases hx : nb.exec (Cmd.update as.hashName (addPayload as ips) as.name) with
      | some e2 =>
        rw [setIPs_exec_err hb hx] at hcase
        rw [hcase] at hok
        simp at hok
      | none =>
        rw [setIPs_ok hb hx] at hcase
        rw [hcase]
        refine ⟨rfl, hpayload, ?_⟩
        show (dedupKeys (addPayload as ips)).toFinset =
          as.ips.toFinset ∪ (ipsToStringArray (newSubset as ips)).toFinset
        rw [dedupKeys_toFinset]
        exact hpayload

/-- Witness for C6: adding an already-present IP makes no client call and
returns success; adding a fresh IP succeeds with the cache becoming the union
of the previous members and the new subset. -/
theorem addIPs_noop_or_union_replace_witness :
    OvnAddressSet.addIPs asW6 nbAllOk [⟨"10.0.0.1".data, false⟩] = (none, asW6, []) ∧
    (OvnAddressSet.addIPs asW6 nbAllOk [⟨"10.0.0.2".data, false⟩]).2.1.ips.toFinset =
      asW6.ips.toFinset ∪
        (ipsToStringArray (newSubset asW6 [⟨"10.0.0.2".data, false⟩])).toFinset := by
  constructor
  · exact (addIPs_noop_or_union_replace nbAllOk asW6 _).1 (by decide)
  · exact ((addIPs_noop_or_union_replace nbAllOk asW6 _).2 (by decide) (by decide)).2.2

theorem newOvnAddressSet_found (nb : NB) (name : List Char) (ips : List IP)
    (h : nb.getResult (hashedAddressSet name) = none) :
    newOvnAddressSet nb name ips =
      (match (initialAddressSet name ips).setIPs nb (ipsToStringArray ips) with
       | (some e, _, calls) => (Except.error e, NBCall.asGet (hashedAddressSet name) :: calls)
       | (none, as2, calls) => (Except.ok as2, NBCall.asGet (hashedAddressSet name) :: calls)) := by
  unfold newOvnAddressSet initialAddressSet
  simp only [h]

theorem newOvnAddressSet_create (nb : NB) (name : List Char) (ips : List IP) (e : OvnError)
    (hg : nb.getResult (hashedAddressSet name) = some e)
    (he : e = OvnError.notFound ∨ e = OvnError.schema) :
    newOvnAddressSet nb name ips =
      (match nb.addBuild (hashedAddressSet name) (ipsToStringArray ips) name with
       | some e2 =>
         (Except.error (GoError.createBuildFailed e2),
          [NBCall.asGet (hashedAddressSet name),
           NBCall.asAdd (hashedAddressSet name) (ipsToStringArray ips) name])
       | none =>
         match nb.exec (Cmd.add (hashedAddressSet name) (ipsToStringArray ips) name) with
         | some e3 =>
           (Except.error (GoError.createExecFailed e3),
            [NBCall.asGet (hashedAddressSet name),
             NBCall.asAdd (hashedAddressSet name) (ipsToStringArray ips) name,
             NBCall.execute (Cmd.add (hashedAddressSet name) (ipsToStringArray ips) name)])
         | none =>
           (Except.ok (initialAddressSet name ips),
            [NBCall.asGet (hashedAddressSet name),
             NBCall.asAdd (hashedAddressSet name) (ipsToStringArray ips) name,
             NBCall.execute (Cmd.add (hashedAddressSet name) (ipsToStringArray ips) name)])) := by
  unfold newOvnAddressSet initialAddressSet
  simp only [hg]
  rw [if_pos he]

theorem setIPs_calls_no_create (nb : NB) (as : OvnAddressSet) (l : List (List Char)) :
    ∀ c ∈ (as.setIPs nb l).2.2, isCreateCall c = false := by
  cases hb : nb.updateBuild as.hashName l with
  | some e =>
    rw [setIPs_build_err hb]
    intro c hc
    simp only [List.mem_singleton] at hc
    subst hc
    rfl
  | none =>
    cases hx : nb.exec (Cmd.update as.hashName l as.name) with
    | some e =>
      rw [setIPs_exec_err hb hx]
      intro c hc
      simp only [List.mem_cons, List.not_mem_nil, or_false] at hc
      rcases hc with h | h <;> subst h <;> rfl
    | none =>
      rw [setIPs_ok hb hx]
      intro c hc
      simp only [List.mem_cons, List.not_mem_nil, or_false] at hc
      rcases hc with h | h <;> subst h <;> rfl

/-- Claim C5: per-family construction is idempotent across restarts — when
`ASGet` finds an existing object no create command is issued; instead a
replace converges membership, succeeding with a cache equal to the requested
set deduplicated by string form; when `ASGet` reports not-found or
schema-unavailable, a create carrying the desired IPs and the name metadata
is issued, and its execution failure is fatal to construction. -/
theorem newOvnAddressSet_adopt_or_create (nb : NB) (name : List Char) (ips : List IP) :
    (nb.getResult (hashedAddressSet name) = none →
      (newOvnAddressSet nb name ips).2 =
        NBCall.asGet (hashedAddressSet name) ::
          ((initialAddressSet name ips).setIPs nb (ipsToStringArray ips)).2.2 ∧
      (∀ c ∈ (newOvnAddressSet nb name ips).2, isCreateCall c = false) ∧
      (((initialAddressSet name ips).setIPs nb (ipsToStringArray ips)).1 = none →
        (newOvnAddressSet nb name ips).1 =
          Except.ok ((initialAddressSet name ips).setIPs nb (ipsToStringArray ips)).2.1 ∧
        (((initialAddressSet name ips).setIPs nb (ipsToStringArray ips)).2.1).ips.toFinset =
          (ipsToStringArray ips).toFinset)) ∧
    ((nb.getResult (hashedAddressSet name) = some OvnError.notFound ∨
        nb.getResult (hashedAddressSet name) = some OvnError.schema) →
      NBCall.asAdd (hashedAddressSet name) (ipsToStringArray ips) name ∈
        (newOvnAddressSet nb name ips).2 ∧
      (∀ e, nb.addBuild (hashedAddressSet name) (ipsToStringArray ips) name = none →
        nb.exec (Cmd.add (hashedAddressSet name) (ipsToStringArray ips) name) = some e →
        (newOvnAddressSet nb name ips).1 = Except.error (GoError.createExecFailed e)) ∧
      (nb.addBuild (hashedAddressSet name) (ipsToStringArray ips) name = none →
        nb.exec (Cmd.add (hashedAddressSet name) (ipsToStringArray ips) name) = none →
        (newOvnAddressSet nb name ips).1 = Except.ok (initialAddressSet name ips) ∧
        (initialAddressSet name ips).ips.toFinset = (ipsToStringArray ips).toFinset)) := by
  constructor
  · intro hg
    have heq := newOvnAddressSet_found nb name ips hg
    have hinit : (initialAddressSet name ips).hashName = hashedAddressSet name := rfl
    have hcache : (initialAddressSet name ips).ips = dedupKeys (ipsToStringArray ips) := rfl
    cases hb : nb.updateBuild (hashedAddressSet name) (ipsToStringArray ips) with
    | some e =>
      have hb' : nb.updateBuild (initialAddressSet name ips).hashName (ipsToStringArray ips) =
          some e := hb
      rw [setIPs_build_err hb'] at heq
      rw [setIPs_build_err hb']
      rw [heq]
      refine ⟨rfl, ?_, ?_⟩
      · intro c hc
        simp only [List.mem_cons, List.not_mem_nil, or_false] at hc
        rcases hc with h | h <;> subst h <;> rfl
      · intro hok
        simp at hok
    | none =>
      have hb' : nb.updateBuild (initialAddressSet name ips).hashName (ipsToStringArray ips) =
          none := hb
      cases hx : nb.exec (Cmd.update (hashedAddressSet name) (ipsToStringArray ips)
          (initialAddressSet name ips).name) with
      | some e =>
        have hx' : nb.exec (Cmd.update (initialAddressSet name ips).hashName
            (ipsToStringArray ips) (initialAddressSet name ips).name) = some e := hx
        rw [setIPs_exec_err hb' hx'] at heq
        rw [setIPs_exec_err hb' hx']
        rw [heq]
        refine ⟨rfl, ?_, ?_⟩
        · intro c hc
          simp only [List.mem_cons, List.not_mem_nil, or_false] at hc
          rcases hc with h | h | h <;> subst h <;> rfl
        · intro hok
          simp at hok
      | none =>
        have hx' : nb.exec (Cmd.update (initialAddressSet name ips).hashName
            (ipsToStringArray ips) (initialAddressSet name ips).name) = none := hx
        rw [setIPs_ok hb' hx'] at heq
        rw [setIPs_ok hb' hx']
        rw [heq]
        refine ⟨rfl, ?_, ?_⟩
        · intro c hc
          simp only [List.mem_cons, List.not_mem_nil, or_false] at hc
          rcases hc with h | h | h <;> subst h <;> rfl
        · intro _
          exact ⟨rfl, dedupKeys_toFinset (ipsToStringArray ips)⟩
  · intro hg
    have heq : newOvnAddressSet nb name ips =
        (match nb.addBuild (hashedAddressSet name) (ipsToStringArray ips) name with
         | some e2 =>
           (Except.error (GoError.createBuildFailed e2),
            [NBCall.asGet (hashedAddressSet name),
             NBCall.asAdd (hashedAddressSet name) (ipsToStringArray ips) name])
         | none =>
           match nb.exec (Cmd.add (hashedAddressSet name) (ipsToStringArray ips) name) with
           | some e3 =>
             (Except.error (GoError.createExecFailed e3),
              [NBCall.asGet (hashedAddressSet name),
               NBCall.asAdd (hashedAddressSet name) (ipsToStringArray ips) name,
               NBCall.execute (Cmd.add (hashedAddressSet name) (ipsToStringArray ips) name)])
           | none =>
             (Except.ok (initialAddressSet name ips),
              [NBCall.asGet (hashedAddressSet name),
               NBCall.asAdd (hashedAddressSet name) (ipsToStringArray ips) name,
               NBCall.execute (Cmd.add (hashedAddressSet name) (ipsToStringArray ips) name)])) := by
      rcases hg with h | h
      · exact newOvnAddressSet_create nb name ips OvnError.notFound h (Or.inl rfl)
      · exact newOvnAddressSet_create nb name ips OvnError.schema h (Or.inr rfl)
    refine ⟨?_, ?_, ?_⟩
    · rw [heq]
      cases hab : nb.addBuild (hashedAddressSet name) (ipsToStringArray ips) name with
      | some e2 => simp
      | none =>
        cases hax : nb.exec (Cmd.add (hashedAddressSet name) (ipsToStringArray ips) name) with
        | some e3 => simp
        | none => simp
    · intro e hab hax
      rw [heq, hab, hax]
    · intro hab hax
      rw [heq, hab, hax]
      exact ⟨rfl, dedupKeys_toFinset (ipsToStringArray ips)⟩

/-- Witness for C5: against an all-success client that finds the object,
construction of `p` issues no create and adopts the replace result; against a
client reporting not-found, construction of `q` issues the create command. -/
theorem newOvnAddressSet_adopt_or_create_witness :
    (∀ c ∈ (newOvnAddressSet nbAllOk ("p".data) [⟨"10.0.0.1".data, false⟩]).2,
      isCreateCall c = false) ∧
    (newOvnAddressSet nbAllOk ("p".data) [⟨"10.0.0.1".data, false⟩]).1 =
      Except.ok ((initialAddressSet ("p".data) [⟨"10.0.0.1".data, false⟩]).setIPs nbAllOk
        (ipsToStringArray [⟨"10.0.0.1".data, false⟩])).2.1 ∧
    NBCall.asAdd (hashedAddressSet ("q".data)) (ipsToStringArray [⟨"10.0.0.1".data, false⟩])
        ("q".data) ∈ (newOvnAddressSet nbGetNotFound ("q".data) [⟨"10.0.0.1".data, false⟩]).2 ∧
    (newOvnAddressSet nbGetNotFound ("q".data) [⟨"10.0.0.1".data, false⟩]).1 =
      Except.ok (initialAddressSet ("q".data) [⟨"10.0.0.1".data, false⟩]) := by
  refine ⟨?_, ?_, ?_, ?_⟩
  · exact ((newOvnAddressSet_adopt_or_create nbAllOk ("p".data) _).1 (by decide)).2.1
  · exact (((newOvnAddressSet_adopt_or_create nbAllOk ("p".data) _).1 (by decide)).2.2
      (by decide)).1
  · exact ((newOvnAddressSet_adopt_or_create nbGetNotFound ("q".data) _).2 (by decide)).1
  · exact (((newOvnAddressSet_adopt_or_create nbGetNotFound ("q".data) _).2 (by decide)).2.2
      (by decide) (by decide)).1

/-- Claim C8: dual-stack `AddIPs` and `DeleteIPs` are fail-fast with the v6
family processed first — a v6 failure is returned immediately, wrapped and
naming the family, without attempting the v4 family; the v4 family is
attempted only after the v6 family succeeds. -/
theorem dualstack_add_delete_failfast (nb : NB) (nm : List Char)
    (s4 s6 : OvnAddressSet) (ips : List IP) (h : ips ≠ []) :
    (∀ e, (s6.addIPs nb (splitIPsByFamily ips).2).1 = some e →
      OvnAddressSets.AddIPs ⟨nm, some s4, some s6⟩ nb ips =
        (some (GoError.familyOpFailed Family.v6 e),
         ⟨nm, some s4, some (s6.addIPs nb (splitIPsByFamily ips).2).2.1⟩,
         (s6.addIPs nb (splitIPsByFamily ips).2).2.2)) ∧
    ((s6.addIPs nb (splitIPsByFamily ips).2).1 = none →
      (OvnAddressSets.AddIPs ⟨nm, some s4, some s6⟩ nb ips).2.2 =
        (s6.addIPs nb (splitIPsByFamily ips).2).2.2 ++
          (s4.addIPs nb (splitIPsByFamily ips).1).2.2) ∧
    (∀ e, (s6.deleteIPs nb (splitIPsByFamily ips).2).1 = some e →
      OvnAddressSets.DeleteIPs ⟨nm, some s4, some s6⟩ nb ips =
        (some (GoError.familyOpFailed Family.v6 e),
         ⟨nm, some s4, some (s6.deleteIPs nb (splitIPsByFamily ips).2).2.1⟩,
         (s6.deleteIPs nb (splitIPsByFamily ips).2).2.2)) ∧
    ((s6.deleteIPs nb (splitIPsByFamily ips).2).1 = none →
      (OvnAddressSets.DeleteIPs ⟨nm, some s4, some s6⟩ nb ips).2.2 =
        (s6.deleteIPs nb (splitIPsByFamily ips).2).2.2 ++
          (s4.deleteIPs nb (splitIPsByFamily ips).1).2.2) := by
  have hemp : ips.isEmpty = false := by
    cases ips with
    | nil => exact absurd rfl h
    | cons a l => rfl
  refine ⟨?_, ?_, ?_, ?_⟩
  · intro e h6
    rcases hr : s6.addIPs nb (splitIPsByFamily ips).2 with ⟨e6, s6', t6⟩
    rw [hr] at h6
    simp only [] at h6
    subst h6
    unfold OvnAddressSets.AddIPs
    simp only [hemp, Bool.false_eq_true, if_false, hr]
  · intro h6
    rcases hr : s6.addIPs nb (splitIPsByFamily ips).2 with ⟨e6, s6', t6⟩
    rw [hr] at h6
    simp only [] at h6
    subst h6
    rcases hr4 : s4.addIPs nb (splitIPsByFamily ips).1 with ⟨e4, s4', t4⟩
    unfold OvnAddressSets.AddIPs
    simp only [hemp, Bool.false_eq_true, if_false, hr, hr4]
    cases e4 <;> rfl
  · intro e h6
    rcases hr : s6.deleteIPs nb (splitIPsByFamily ips).2 with ⟨e6, s6', t6⟩
    rw [hr] at h6
    simp only [] at h6
    subst h6
    unfold OvnAddressSets.DeleteIPs
    simp only [hemp, Bool.false_eq_true, if_false, hr]
  · intro h6
    rcases hr : s6.deleteIPs nb (splitIPsByFamily ips).2 with ⟨e6, s6', t6⟩
    rw [hr] at h6
    simp only [] at h6
    subst h6
    rcases hr4 : s4.deleteIPs nb (splitIPsByFamily ips).1 with ⟨e4, s4', t4⟩
    unfold OvnAddressSets.DeleteIPs
    simp only [hemp, Bool.false_eq_true, if_false, hr, hr4]
    cases e4 <;> rfl

/-- Witness for C8 at concrete inputs: a v6 replace-execution failure makes
`AddIPs` return the family-tagged error with only the v6 trace, and a
successful v6 `deleteIPs` is followed by the v4 one. -/
theorem dualstack_add_delete_failfast_witness :
    OvnAddressSets.AddIPs ⟨"n".data, some asN4, some asN6⟩ nbV6UpdateFails
        [⟨"fd00::1".data, true⟩] =
      (some (GoError.familyOpFailed Family.v6
          (GoError.addIPsFailed (GoError.updateExecFailed OvnError.other))),
       ⟨"n".data, some asN4,
        some (OvnAddressSet.addIPs asN6 nbV6UpdateFails
          (splitIPsByFamily [⟨"fd00::1".data, true⟩]).2).2.1⟩,
       (OvnAddressSet.addIPs asN6 nbV6UpdateFails
          (splitIPsByFamily [⟨"fd00::1".data, true⟩]).2).2.2) ∧
    (OvnAddressSets.DeleteIPs ⟨"n".data, some asN4, some asN6⟩ nbAllOk
        [⟨"fd00::1".data, true⟩]).2.2 =
      (OvnAddressSet.deleteIPs asN6 nbAllOk
          (splitIPsByFamily [⟨"fd00::1".data, true⟩]).2).2.2 ++
        (OvnAddressSet.deleteIPs asN4 nbAllOk
          (splitIPsByFamily [⟨"fd00::1".data, true⟩]).1).2.2 := by
  constructor
  · exact (dualstack_add_delete_failfast nbV6UpdateFails ("n".data) asN4 asN6 _
      (by decide)).1 _ (by decide)
  · exact (dualstack_add_delete_failfast nbAllOk ("n".data) asN4 asN6 _
      (by decide)).2.2.2 (by decide)

/-- Claim C3 counterexample: with a client whose delete execution reports
not-found, `Destroy` of a dual-stack handle returns an error (and leaves the
v4 cache), where the claim asserts not-found is treated as success with the
cache cleared. -/
theorem destroy_notFound_counterexample :
    (OvnAddressSets.Destroy ⟨"d".data, some asD4, some asD6⟩ nbDelExecNotFound).1 =
      some (GoError.destroyExecFailed OvnError.notFound) ∧
    (OvnAddressSets.Destroy ⟨"d".data, some asD4, some asD6⟩ nbDelExecNotFound).2.1.ipv4 =
      some asD4 := by decide

/-- Claim C3 (amended): `Destroy` issues one delete-by-hashed-identifier
command per present family (v4 first, aborting on the first failure); the
per-family destroy surfaces every execution failure — including not-found —
as an error and leaves the cache, and clears the cache only on success
(not-found is treated as success only by the factory-level
`DestroyAddressSetInBackingStore`, which is outside this handle). -/
theorem destroy_per_family_surfaces_failures (nb : NB) (nm : List Char)
    (s4 s6 : OvnAddressSet) :
    ((s4.destroy nb).1 = none →
      s4.destroy nb =
        (none, { s4 with ips := [] },
         [NBCall.asDel s4.hashName, NBCall.execute (Cmd.del s4.hashName)])) ∧
    (∀ e, nb.delBuild s4.hashName = none → nb.exec (Cmd.del s4.hashName) = some e →
      (s4.destroy nb).1 = some (GoError.destroyExecFailed e) ∧
      (s4.destroy nb).2.1 = s4) ∧
    ((s4.destroy nb).1 = none → (s6.destroy nb).1 = none →
      OvnAddressSets.Destroy ⟨nm, some s4, some s6⟩ nb =
        (none, ⟨nm, some (s4.destroy nb).2.1, some (s6.destroy nb).2.1⟩,
         (s4.destroy nb).2.2 ++ (s6.destroy nb).2.2)) ∧
    (∀ e, (s4.destroy nb).1 = some e →
      OvnAddressSets.Destroy ⟨nm, some s4, some s6⟩ nb =
        (some e, ⟨nm, some (s4.destroy nb).2.1, some s6⟩, (s4.destroy nb).2.2)) := by
  refine ⟨?_, ?_, ?_, ?_⟩
  · intro hok
    cases hb : nb.delBuild s4.hashName with
    | some e =>
      unfold OvnAddressSet.destroy at hok ⊢
      rw [hb] at hok
      simp at hok
    | none =>
      cases hx : nb.exec (Cmd.del s4.hashName) with
      | some e =>
        unfold OvnAddressSet.destroy at hok ⊢
        rw [hb, hx] at hok
        simp at hok
      | none =>
        unfold OvnAddressSet.destroy
        rw [hb, hx]
  · intro e hb hx
    unfold OvnAddressSet.destroy
    rw [hb, hx]
    exact ⟨rfl, rfl⟩
  · intro h4 h6
    rcases hr4 : s4.destroy nb with ⟨e4, s4', t4⟩
    rw [hr4] at h4
    simp only [] at h4
    subst h4
    rcases hr6 : s6.destroy nb with ⟨e6, s6', t6⟩
    rw [hr6] at h6
    simp only [] at h6
    subst h6
    unfold OvnAddressSets.Destroy
    simp only [hr4, hr6]
  · intro e h4
    rcases hr4 : s4.destroy nb with ⟨e4, s4', t4⟩
    rw [hr4] at h4
    simp only [] at h4
    subst h4
    unfold OvnAddressSets.Destroy
    simp only [hr4]

/-- Witness for C3's amended theorem: all-success destroy of a dual-stack
handle issues one delete per family and clears both caches, while a
not-found delete execution is surfaced with the cache kept. -/
theorem destroy_per_family_surfaces_failures_witness :
    OvnAddressSets.Destroy ⟨"d".data, some asD4, some asD6⟩ nbAllOk =
      (none,
       ⟨"d".data, some (OvnAddressSet.destroy asD4 nbAllOk).2.1,
        some (OvnAddressSet.destroy asD6 nbAllOk).2.1⟩,
       (OvnAddressSet.destroy asD4 nbAllOk).2.2 ++
         (OvnAddressSet.destroy asD6 nbAllOk).2.2) ∧
    (OvnAddressSet.destroy asD4 nbDelExecNotFound).1 =
      some (GoError.destroyExecFailed OvnError.notFound) ∧
    (OvnAddressSet.destroy asD4 nbDelExecNotFound).2.1 = asD4 := by
  refine ⟨?_, ?_, ?_⟩
  · exact (destroy_per_family_surfaces_failures nbAllOk ("d".data) asD4 asD6).2.2.1
      (by decide) (by decide)
  · exact ((destroy_per_family_surfaces_failures nbDelExecNotFound ("d".data) asD4 asD6).2.1
      OvnError.notFound (by decide) (by decide)).1
  · exact ((destroy_per_family_surfaces_failures nbDelExecNotFound ("d".data) asD4 asD6).2.1
      OvnError.notFound (by decide) (by decide)).2

theorem forEachLoop_first_named (recs : List ASRecord) :
    forEachLoop [] recs =
      match firstNameValue recs with
      | none => []
      | some nm => [visitOfName nm] := by
  induction recs with
  | nil => rfl
  | cons r rest ih =>
    cases hn : r.nameValue with
    | none =>
      unfold forEachLoop firstNameValue
      rw [hn]
      exact ih
    | some nm =>
      unfold forEachLoop firstNameValue
      rw [hn]
      simp [visitOfName]

/-- Claim C4 (amended): the enumeration stops after the first processed
record — the visitor is invoked at most once: once, with the normalized name
of the first record carrying a string-valued "name" metadata field (records
lacking one are skipped, not terminal), and zero times when no record
carries one; over records named a_v4 and a_v6 the normalized name "a" is
visited exactly once. -/
theorem forEachAddressSet_first_named_once (recs : List ASRecord) :
    (ForEachAddressSet none recs).2 =
      (match firstNameValue recs with
       | none => []
       | some nm => [visitOfName nm]) ∧
    (ForEachAddressSet none recs).2.length ≤ 1 ∧
    (ForEachAddressSet none recs).1 = none ∧
    (ForEachAddressSet none
        [⟨[("name".data, ExtVal.str ("a_v4".data))]⟩,
         ⟨[("name".data, ExtVal.str ("a_v6".data))]⟩]).2 =
      [("a".data, "a".data, [])] := by
  have h := forEachLoop_first_named recs
  refine ⟨h, ?_, rfl, by decide⟩
  show (forEachLoop [] recs).length ≤ 1
  rw [h]
  cases firstNameValue recs <;> simp

/-- Claim C4 counterexample: over a non-empty listing whose first record
lacks the "name" field and whose second record is named b_v4, the visitor is
invoked once — the claim predicts zero invocations for this listing. -/
theorem forEachAddressSet_skips_unnamed_counterexample :
    ASRecord.nameValue ⟨[]⟩ = none ∧
    (ForEachAddressSet none
        [⟨[]⟩, ⟨[("name".data, ExtVal.str ("b_v4".data))]⟩]).2 =
      [("b".data, "b".data, [])] := by decide

/-- Claim C1 (code bug), evaluated at failing inputs: deleting the absent
10.0.0.2 from {10.0.0.1} succeeds and issues exactly one replace, but the
replace carries ["10.0.0.2"] and the cache ends as {"10.0.0.2"} — not the
documented previous-minus-given {"10.0.0.1"}; and deleting the present
10.0.0.1 from {10.0.0.1, 10.0.0.3} empties the cache instead of keeping
{"10.0.0.3"}. -/
theorem deleteIPs_replaces_with_absent_ips :
    OvnAddressSet.deleteIPs asDel1 nbAllOk [⟨"10.0.0.2".data, false⟩] =
      (none, { asDel1 with ips := ["10.0.0.2".data] },
       [NBCall.asUpdate asDel1.hashName ["10.0.0.2".data] asDel1.name,
        NBCall.execute (Cmd.update asDel1.hashName ["10.0.0.2".data] asDel1.name)]) ∧
    (OvnAddressSet.deleteIPs { asDel1 with ips := ["10.0.0.1".data, "10.0.0.3".data] }
        nbAllOk [⟨"10.0.0.1".data, false⟩]).2.1.ips = [] := by decide

/-- Claim C2 (code bug), evaluated at a failing input: with both families
present, the v6 replace succeeding and the v4 replace failing, `SetIPs`
returns nil (`errors.Wrapf` with a nil first argument drops the v4 error),
although both families were attempted — the trace holds both updates. -/
theorem setIPs_drops_v4_only_error :
    (OvnAddressSet.setIPs asN4 nbV4UpdateFails []).1 =
      some (GoError.updateExecFailed OvnError.other) ∧
    (OvnAddressSets.SetIPs ⟨"n".data, some asN4, some asN6⟩ nbV4UpdateFails []).1 = none ∧
    (OvnAddressSets.SetIPs ⟨"n".data, some asN4, some asN6⟩ nbV4UpdateFails []).2.2 =
      [NBCall.asUpdate asN6.hashName [] asN6.name,
       NBCall.execute (Cmd.update asN6.hashName [] asN6.name),
       NBCall.asUpdate asN4.hashName [] asN4.name,
       NBCall.execute (Cmd.update asN4.hashName [] asN4.name)] := by decide
